import Mathlib

/-!
# Verification of the transaction dashboard's generation / analytics pipelines

Shallow embedding of the core of the `frontend-assessment` repository:

* `src/workers/transactionGenerator.ts` — streaming generation pipeline
  (seed + batches + kill flag);
* `src/workers/analytics.ts` — chunked, cancellable risk analytics pipeline
  (job token + cancel flag, partial/complete events);
* `src/components/Dashboard.tsx` — coordination layer (analytics-worker
  message handler, `applyFilters`) and `src/hooks/useTransactionFilters.ts`;
* `mergeSummaries` from the legacy Dashboard variant (in `Stats.tsx`).

Modelling conventions:

* JS `number` is embedded as `ℚ` for currency amounts / risk scores
  (the source only adds, compares and divides decimal constants) and as
  `Int`/`Nat` for counters and epoch-millisecond timestamps;
* JS strings are `List Char`; `String.prototype.toLowerCase` /
  `trim` / `includes` are embedded below;
* `Date` values are carried as their epoch-millisecond `Int`;
  `Date#getHours` is embedded with a zero local-timezone offset;
* `Date.now()` (used only to stamp `generatedAt` on outgoing summaries)
  is modelled as the constant `0`: no claim inspects wall-clock values;
* the single-threaded worker event loop is explicit: a `kill` / `cancel`
  message can only be observed at an `await` suspension point, so each
  pipeline run is a pure function of its inputs plus the index of the
  suspension during which the flag was raised (`none` = never).
-/

set_option maxRecDepth 100000

namespace FintechCore

/-- JS strings, embedded as character lists. -/
abbrev Str := List Char

/-- `String.prototype.toLowerCase`, character-wise (ASCII suffices for the
data in this repository). -/
def toLowerStr (s : Str) : Str := s.map Char.toLower

/-- `String.prototype.trim`: strip leading and trailing whitespace. -/
def trimStr (s : Str) : Str :=
  ((s.dropWhile Char.isWhitespace).reverse.dropWhile Char.isWhitespace).reverse

/-- `haystack.includes(needle)` — substring test (`''` is contained in
everything, as in JS). -/
def strIncludes (haystack needle : Str) : Bool :=
  (List.range (haystack.length + 1)).any fun i => needle.isPrefixOf (haystack.drop i)

/-- `src/types/transaction.ts` — the transaction record.  `type` is one of
`"debit" | "credit"`, `status` one of `"pending" | "completed" | "failed"`;
both are carried as strings, as in the source.  `timestamp` is the `Date`'s
epoch-millisecond value. -/
structure Transaction where
  id : Str
  timestamp : Int
  amount : ℚ
  currency : Str
  type : Str
  category : Str
  description : Str
  merchantName : Str
  status : Str
  userId : Str
  accountId : Str
  location : Option Str
  reference : Option Str
deriving DecidableEq

/-- `src/types/transaction.ts` — the aggregate summary.  `categoryCounts`
is a JS object used as a map with a `|| 0` default; it is embedded as a
total function defaulting to `0` on absent keys. -/
structure TransactionSummary where
  totalTransactions : Nat
  totalAmount : ℚ
  totalCredits : ℚ
  totalDebits : ℚ
  avgTransactionAmount : ℚ
  categoryCounts : Str → Nat

/-- The `"credit"` string literal of the source. -/
def creditType : Str := "credit".toList

/-- The `"debit"` string literal of the source. -/
def debitType : Str := "debit".toList

/-- The `"all"` sentinel of the filter dropdowns. -/
def allSentinel : Str := "all".toList

/-- One iteration of the single `for (const record of records)` loop body of
`calculateSummary` (`transactionGenerator.ts`). -/
def summaryStep (summary : TransactionSummary) (record : Transaction) : TransactionSummary :=
  { summary with
    totalTransactions := summary.totalTransactions + 1
    totalAmount := summary.totalAmount + record.amount
    totalCredits :=
      if record.type = creditType then summary.totalCredits + record.amount
      else summary.totalCredits
    totalDebits :=
      if record.type = debitType then summary.totalDebits + record.amount
      else summary.totalDebits
    categoryCounts := fun c =>
      if c = record.category then summary.categoryCounts c + 1
      else summary.categoryCounts c }

/-- The zero summary `calculateSummary` starts from. -/
def emptySummary : TransactionSummary :=
  { totalTransactions := 0
    totalAmount := 0
    totalCredits := 0
    totalDebits := 0
    avgTransactionAmount := 0
    categoryCounts := fun _ => 0 }

/-- `calculateSummary` (`transactionGenerator.ts` lines 144–169): one pass
over the records, then the average is recomputed from the totals
(`0` when the count is `0`). -/
def calculateSummary (records : List Transaction) : TransactionSummary :=
  let s := records.foldl summaryStep emptySummary
  { s with
    avgTransactionAmount :=
      if s.totalTransactions > 0 then s.totalAmount / (s.totalTransactions : ℚ) else 0 }

/-- `mergeSummaries` (`Stats.tsx` legacy Dashboard variant, lines 122–146),
non-null branch: counts and sums add, category counts add per key, and the
average is recomputed as merged total over merged count — the JS
`count || 1` divisor turns a zero merged count into a division by `1`. -/
def mergeSummaries (current delta : TransactionSummary) : TransactionSummary :=
  let count := current.totalTransactions + delta.totalTransactions
  { totalTransactions := count
    totalAmount := current.totalAmount + delta.totalAmount
    totalCredits := current.totalCredits + delta.totalCredits
    totalDebits := current.totalDebits + delta.totalDebits
    avgTransactionAmount :=
      (current.totalAmount + delta.totalAmount) /
        ((if count = 0 then 1 else count : Nat) : ℚ)
    categoryCounts := fun c => current.categoryCounts c + delta.categoryCounts c }

/-! ## Generation pipeline (`transactionGenerator.ts`) -/

/-- Outbound messages of the generation worker (`GeneratorResponse`). -/
inductive GenEvent where
  | seed (transactions : List Transaction) (summary : TransactionSummary)
  | batch (transactions : List Transaction) (summaryDelta : TransactionSummary) (done : Bool)

/-- One record produced by the `for (let i = 0; i < count; i++)` body of
`generateTransactions`.  The `Math.random()`-driven field content cannot be
embedded deterministically and is irrelevant to every claim about the
pipeline (those depend only on how many records each event carries); the
skeleton keeps the loop structure — exactly one fully-populated record per
index. -/
def mkGeneratedTxn (index : Int) : Transaction :=
  { id := "txn_".toList ++ Nat.toDigits 10 index.toNat
    timestamp := 0
    amount := 1
    currency := "USD".toList
    type := debitType
    category := "Food".toList
    description := "Transaction".toList
    merchantName := "M".toList
    status := "completed".toList
    userId := "user_0".toList
    accountId := "acc_0".toList
    location := none
    reference := none }

/-- `generateTransactions(count, offset)` — a JS `for` loop from `0` while
`i < count`, so a negative or zero `count` yields no records. -/
def generateTransactions (count : Int) (offset : Int := 0) : List Transaction :=
  (List.range count.toNat).map fun i => mkGeneratedTxn (offset + i)

/-- `SEED_COUNT` (`transactionGenerator.ts` line 24). -/
def SEED_COUNT : Int := 200

/-- `BATCH_SIZE` — the default when `init` carries no `batchSize`. -/
def BATCH_SIZE : Int := 500

/-- The `killGeneration` flag as seen by a run: the `kill` message can only
be delivered while the run is suspended in `await wait(16)`, so the flag is
`true` exactly after `killAtWait` waits have completed (`none`: no kill). -/
def killObservedAt (killAtWait : Option Nat) (waitsDone : Nat) : Bool :=
  match killAtWait with
  | none => false
  | some k => decide (k ≤ waitsDone)

/-- The `while (!killGeneration && produced < targetSize)` loop of
`scheduleNextBatch` (lines 67–100), plus the trailing
`if (!killGeneration) post({..., done: true})`.  `fuel` bounds the number
of iterations; with `batchSize ≥ 1` every iteration produces at least one
record, so `targetSize + 2` fuel is never exhausted (for `batchSize ≤ 0`
the JS loop would spin forever — claims never touch that case). -/
def scheduleNextBatchLoop (targetSize batchSize : Int) (killAtWait : Option Nat) :
    Nat → Int → Nat → List GenEvent
  | 0, _, _ => []
  | fuel + 1, produced, waitsDone =>
    if killObservedAt killAtWait waitsDone = false ∧ produced < targetSize then
      let remaining := targetSize - produced
      let transactionCount := min batchSize remaining
      let transactions := generateTransactions transactionCount produced
      let produced' := produced + (transactions.length : Int)
      let evt := GenEvent.batch transactions (calculateSummary transactions)
        (decide (produced' ≥ targetSize))
      if produced' < targetSize ∧ killObservedAt killAtWait waitsDone = false then
        evt :: scheduleNextBatchLoop targetSize batchSize killAtWait fuel produced' (waitsDone + 1)
      else
        evt :: scheduleNextBatchLoop targetSize batchSize killAtWait fuel produced' waitsDone
    else
      if killObservedAt killAtWait waitsDone = false then
        [GenEvent.batch [] (calculateSummary []) true]
      else []

/-- Fuel that is always sufficient for `scheduleNextBatchLoop` when
`batchSize ≥ 1`. -/
def genFuel (total : Int) : Nat := total.toNat + 2

/-- The `init` branch of the generation worker's message handler
(lines 38–64): reset the kill flag, default the batch size, emit the seed,
then either the immediate terminal batch (seed already meets the target) or
the streaming loop. -/
def initRun (total : Int) (batchSize? : Option Int) (killAtWait : Option Nat) : List GenEvent :=
  let batchSize := batchSize?.getD BATCH_SIZE
  let initialData := generateTransactions (min SEED_COUNT total)
  let seedEvt := GenEvent.seed initialData (calculateSummary initialData)
  if (initialData.length : Int) ≥ total then
    [seedEvt, GenEvent.batch [] (calculateSummary []) true]
  else
    seedEvt ::
      scheduleNextBatchLoop total batchSize killAtWait (genFuel total)
        (initialData.length : Int) 0

/-- Number of `await wait(16)` suspensions an unkilled streaming loop
performs from the given state (mirrors `scheduleNextBatchLoop`). -/
def streamWaits (targetSize batchSize : Int) : Nat → Int → Nat
  | 0, _ => 0
  | fuel + 1, produced =>
    if produced < targetSize then
      let transactionCount := min batchSize (targetSize - produced)
      let produced' :=
        produced + ((generateTransactions transactionCount produced).length : Int)
      if produced' < targetSize then streamWaits targetSize batchSize fuel produced' + 1
      else 0
    else 0

/-- `true` on `seed` events. -/
def genIsSeed : GenEvent → Bool
  | .seed .. => true
  | .batch .. => false

/-- Record count carried by an event. -/
def genRecCount : GenEvent → Nat
  | .seed transactions _ => transactions.length
  | .batch transactions _ _ => transactions.length

/-- `done` flag of an event (`seed` events carry none; `false`). -/
def genDone : GenEvent → Bool
  | .seed .. => false
  | .batch _ _ done => done

/-- Observable shape of a generation event: (is-seed, record count, done). -/
def genShape (e : GenEvent) : Bool × Nat × Bool := (genIsSeed e, genRecCount e, genDone e)

/-! ## Risk scoring functions (`analytics.ts`) -/

/-- `new Date(timestamp).getHours()` for a non-negative epoch-millisecond
timestamp, with the local timezone offset modelled as `0`. -/
def getHours (timestamp : Int) : Int := (timestamp / 3600000) % 24

/-- `calculateRiskFactors` (`analytics.ts` lines 144–160): merchant
familiarity, amount and time-of-day risk, summed. -/
def calculateRiskFactors (transaction : Transaction)
    (allTransactions : List Transaction) : ℚ :=
  let merchantHistory :=
    allTransactions.filter fun t => t.merchantName = transaction.merchantName
  let merchantRisk : ℚ := if merchantHistory.length < 5 then 0.8 else 0.2
  let amountRisk : ℚ := if transaction.amount > 1000 then 0.6 else 0.1
  let transactionHour := getHours transaction.timestamp
  let timeRisk : ℚ := if transactionHour < 6 then 0.4 else 0.1
  merchantRisk + amountRisk + timeRisk

/-- `analyzeTransactionPatterns` (`analytics.ts` lines 164–199). -/
def analyzeTransactionPatterns (transaction : Transaction)
    (allTransactions : List Transaction) : ℚ :=
  let similarTransactions :=
    allTransactions.filter fun t =>
      t.merchantName = transaction.merchantName ∧
        |t.amount - transaction.amount| < 10
  let velocityCheck :=
    allTransactions.filter fun t =>
      t.userId = transaction.userId ∧
        |t.timestamp - transaction.timestamp| < 60 * 60 * 1000
  (if similarTransactions.length > 3 then (0.3 : ℚ) else 0) +
    (if velocityCheck.length > 5 then (0.5 : ℚ) else 0)

/-- `array.slice(-10)` — the last (up to) ten elements. -/
def lastTen {α : Type} (l : List α) : List α := l.drop (l.length - 10)

/-- `detectAnomalies` (`analytics.ts` lines 203–231).  The JS truthiness
test `transaction.location && ...` is `isSome` here (generated locations
are never the empty string). -/
def detectAnomalies (transaction : Transaction)
    (allTransactions : List Transaction) : ℚ :=
  let userTransactions :=
    allTransactions.filter fun txn => txn.userId = transaction.userId
  let totalAmount := (userTransactions.map Transaction.amount).sum
  let avgAmount : ℚ :=
    if userTransactions.length > 0 then totalAmount / (userTransactions.length : ℚ) else 0
  let amountDeviation : ℚ :=
    if avgAmount > 0 then |transaction.amount - avgAmount| / avgAmount else 0
  let recentTransactions := lastTen userTransactions
  let locationAnomaly : ℚ :=
    if transaction.location.isSome ∧
        ¬ recentTransactions.any fun t => t.location = transaction.location then 0.4
    else 0
  min (amountDeviation * 0.3 + locationAnomaly) 1

/-! ## Analytics pipeline (`analytics.ts` message handler) -/

/-- The worker's running `AnalyticsSummary`.  `patterns` / `anomalies` are
JS objects keyed by transaction id, embedded as partial maps. -/
structure AnalyticsSummary where
  totalRisk : ℚ
  highRiskTransactions : Nat
  patterns : Str → Option ℚ
  anomalies : Str → Option ℚ
  generatedAt : Nat

/-- The summary every `analyze` job starts from (lines 66–72). -/
def freshAnalyticsSummary : AnalyticsSummary :=
  { totalRisk := 0
    highRiskTransactions := 0
    patterns := fun _ => none
    anomalies := fun _ => none
    generatedAt := 0 }

/-- Outbound messages of the analytics worker (`AnalyticsResponse`):
`interim` embeds the wire message `{ type: 'partial', ... }`, `complete`
the wire message `{ type: 'complete', ... }`. -/
inductive AnalyticsEvent where
  | interim (summary : AnalyticsSummary) (processed total : Nat)
  | complete (summary : AnalyticsSummary) (processed total : Nat)

/-- The `shouldCancel || jobToken !== currentJobToken` test as seen by a
run: a `cancel` / `kill` / superseding `analyze` message (each of which
bumps the token) can only be delivered while the run is suspended in the
`await wait(0)` that follows an emitted partial, so supersession is
observable exactly after `cancelAtWait` such suspensions (`none`: never). -/
def cancelObservedAt (cancelAtWait : Option Nat) (partialsDone : Nat) : Bool :=
  match cancelAtWait with
  | none => false
  | some j => decide (j ≤ partialsDone)

/-- The per-record accumulation statements of the `analyze` loop body
(lines 84–98): compute risk, pattern and anomaly scores, add the risk to
the total, bump the high-risk count when `risk > 0.7`, and store the per-id
pattern and anomaly scores. -/
def accumulateRecord (allTransactions : List Transaction) (summary : AnalyticsSummary)
    (transaction : Transaction) : AnalyticsSummary :=
  let risk := calculateRiskFactors transaction allTransactions
  let patternScore := analyzeTransactionPatterns transaction allTransactions
  let anomalyScore := detectAnomalies transaction allTransactions
  { summary with
    totalRisk := summary.totalRisk + risk
    highRiskTransactions :=
      summary.highRiskTransactions + if risk > 0.7 then 1 else 0
    patterns := fun s =>
      if s = transaction.id then some patternScore else summary.patterns s
    anomalies := fun s =>
      if s = transaction.id then some anomalyScore else summary.anomalies s }

/-- The `for (let index = 0; index < total; index += 1)` loop of the
`analyze` handler (lines 78–139), then the final cancellation check and the
`complete` message.  Arguments after the colon: remaining records,
`index` reached so far, completed partial/wait suspensions, and the running
summary object. -/
def analyzeLoop (allTransactions : List Transaction) (effectiveChunkSize total : Nat)
    (cancelAtWait : Option Nat) :
    List Transaction → Nat → Nat → AnalyticsSummary → List AnalyticsEvent
  | [], _, partialsDone, summary =>
    if cancelObservedAt cancelAtWait partialsDone then []
    else [AnalyticsEvent.complete { summary with generatedAt := 0 } total total]
  | transaction :: rest, index, partialsDone, summary =>
    if cancelObservedAt cancelAtWait partialsDone then []
    else
      let summary' := accumulateRecord allTransactions summary transaction
      let processed := index + 1
      if processed % effectiveChunkSize = 0 ∨ processed = total then
        if cancelObservedAt cancelAtWait partialsDone then []
        else if processed < total then
          AnalyticsEvent.interim { summary' with generatedAt := 0 } processed total ::
            analyzeLoop allTransactions effectiveChunkSize total cancelAtWait rest
              processed (partialsDone + 1) summary'
        else
          analyzeLoop allTransactions effectiveChunkSize total cancelAtWait rest
            processed partialsDone summary'
      else
        analyzeLoop allTransactions effectiveChunkSize total cancelAtWait rest
          processed partialsDone summary'

/-- The `analyze` branch of the analytics worker's message handler
(lines 55–139): default `chunkSize` to `1000`, clamp it with
`Math.max(1, chunkSize)`, then run the chunked loop. -/
def analyzeRun (transactions : List Transaction) (chunkSize? : Option Int)
    (cancelAtWait : Option Nat) : List AnalyticsEvent :=
  let chunkSize := chunkSize?.getD 1000
  let total := transactions.length
  let effectiveChunkSize := (max 1 chunkSize).toNat
  analyzeLoop transactions effectiveChunkSize total cancelAtWait transactions 0 0
    freshAnalyticsSummary

/-- `true` on `complete` events. -/
def evIsComplete : AnalyticsEvent → Bool
  | .interim .. => false
  | .complete .. => true

/-- Observable shape of an analytics event: (is-complete, processed, total). -/
def evShape : AnalyticsEvent → Bool × Nat × Nat
  | .interim _ processed total => (false, processed, total)
  | .complete _ processed total => (true, processed, total)

/-- Number of partial (`interim`) events in a trace. -/
def countInterim (events : List AnalyticsEvent) : Nat :=
  (events.filter fun e => !evIsComplete e).length

/-! ## Coordination layer (`Dashboard.tsx`) -/

/-- The wire `type` tag of an analytics worker message: the worker only
ever posts `'partial'` and `'complete'` (`AnalyticsResponse`). -/
def analyticsMsgKind : AnalyticsEvent → Str
  | .interim .. => "partial".toList
  | .complete .. => "complete".toList

/-- Coordination state owned by `Dashboard.tsx`: `pendingBatchRef`,
`isAnalyzing`, `riskAnalytics`, and a count of
`scheduleNextBatchRef.current()` invocations (the deferred generation
batches actually dispatched). -/
structure CoordState where
  pendingBatch : Bool
  isAnalyzing : Bool
  riskAnalytics : Option AnalyticsSummary
  scheduledBatches : Nat

/-- Summary carried by an analytics message. -/
def evSummary : AnalyticsEvent → AnalyticsSummary
  | .interim summary _ _ => summary
  | .complete summary _ _ => summary

/-- `handleMessage` of the analytics-worker effect in `Dashboard.tsx`
(lines 209–221): ignore any payload whose `type` is not `'result'`;
otherwise store the summary, clear `isAnalyzing`, and if a batch was
pending, clear the flag and invoke the deferred `scheduleNextBatch`. -/
def handleAnalyticsWorkerMessage (state : CoordState) (payload : AnalyticsEvent) :
    CoordState :=
  if analyticsMsgKind payload ≠ "result".toList then state
  else
    let state' := { state with
      riskAnalytics := some (evSummary payload)
      isAnalyzing := false }
    if state'.pendingBatch then
      { state' with
        pendingBatch := false
        scheduledBatches := state'.scheduledBatches + 1 }
    else state'

/-! ## Filter/search evaluation (`useTransactionFilters.ts` /
`Dashboard.tsx` `applyFilters`) -/

/-- `FilterOptions` (`src/types/transaction.ts`). -/
structure FilterOptions where
  type : Str
  status : Str
  category : Str
  searchTerm : Str
deriving DecidableEq

/-- Fractional decimal digits of `q ∈ [0, 1)`, most significant first;
the fuel bounds the digit count (JS prints at most 17 significant digits). -/
def fracDigits : Nat → ℚ → Str
  | 0, _ => []
  | n + 1, q =>
    if q = 0 then []
    else
      let d : Nat := (⌊q * 10⌋ : Int).toNat
      Nat.digitChar d :: fracDigits n (q * 10 - (d : ℚ))

/-- `Number.prototype.toString` for the amounts occurring here (finite
decimals): sign, integer digits, and a fractional part when non-zero.
The shortest-binary64-representation subtleties of JS are immaterial to
the claims, which never depend on a particular rendering. -/
def ratToStr (q : ℚ) : Str :=
  let sign : Str := if q < 0 then ['-'] else []
  let a : ℚ := |q|
  let ip : Nat := (⌊a⌋ : Int).toNat
  let frac := fracDigits 17 (a - (⌊a⌋ : Int))
  sign ++ Nat.toDigits 10 ip ++ (if frac = [] then [] else '.' :: frac)

/-- `transactionMatchesSearch` (`useTransactionFilters.ts` lines 6–15):
case-insensitive substring match against description, merchant, category,
id, and the string form of the amount. -/
def transactionMatchesSearch (transaction : Transaction) (term : Str) : Bool :=
  let lowerTerm := toLowerStr term
  strIncludes (toLowerStr transaction.description) lowerTerm ||
  strIncludes (toLowerStr transaction.merchantName) lowerTerm ||
  strIncludes (toLowerStr transaction.category) lowerTerm ||
  strIncludes (toLowerStr transaction.id) lowerTerm ||
  strIncludes (ratToStr transaction.amount) lowerTerm

/-- The four sequential `continue` guards of the `applyFilters` loop body
(search term, type, status, category), folded into one pass/fail test in
the same order.  JS string truthiness (`currentFilters.type && ...`) is
the non-emptiness test. -/
def recordPassesFilters (currentFilters : FilterOptions) (lowerSearch : Str)
    (transaction : Transaction) : Bool :=
  if lowerSearch ≠ [] ∧ transactionMatchesSearch transaction lowerSearch = false then
    false
  else if currentFilters.type ≠ [] ∧ currentFilters.type ≠ allSentinel ∧
      transaction.type ≠ currentFilters.type then
    false
  else if currentFilters.status ≠ [] ∧ currentFilters.status ≠ allSentinel ∧
      transaction.status ≠ currentFilters.status then
    false
  else if currentFilters.category ≠ [] ∧ transaction.category ≠ currentFilters.category then
    false
  else true

/-- `nextIds.length >= limit` — with no limit (`Number.POSITIVE_INFINITY`
under non-compact view) the test is never true. -/
def limitReached (limit : Option Nat) (count : Nat) : Bool :=
  match limit with
  | none => false
  | some m => decide (m ≤ count)

/-- The `for (let index = 0; ...)` loop of `applyFilters`
(`useTransactionFilters.ts` lines 51–107): skip records failing a guard,
push the index of each match, and break once the pagination limit is
reached.  Arguments after the colon: remaining records, current `index`,
and `nextIds.length` so far. -/
def applyFiltersGo (currentFilters : FilterOptions) (lowerSearch : Str)
    (limit : Option Nat) : List Transaction → Nat → Nat → List Nat
  | [], _, _ => []
  | transaction :: rest, index, count =>
    if recordPassesFilters currentFilters lowerSearch transaction then
      if limitReached limit (count + 1) then [index]
      else
        index :: applyFiltersGo currentFilters lowerSearch limit rest (index + 1) (count + 1)
    else applyFiltersGo currentFilters lowerSearch limit rest (index + 1) count

/-- `applyFilters`: lower-case and trim the search term, fix the limit from
the compact-view preference, and run the loop over the dataset.  The
`setFilteredIds` state write is the returned index list. -/
def applyFilters (transactions : List Transaction) (compactView : Bool)
    (itemsPerPage : Nat) (currentFilters : FilterOptions) (search : Str) : List Nat :=
  let lowerSearch := toLowerStr (trimStr search)
  let limit : Option Nat := if compactView then some itemsPerPage else none
  applyFiltersGo currentFilters lowerSearch limit transactions 0 0

/-! ## Concrete fixtures used by witnesses and counterexamples -/

/-- A concrete record for witness instantiations. -/
def mkSample (ident : Str) (amt : ℚ) (ts : Int) (merchant user : Str) : Transaction :=
  { id := ident
    timestamp := ts
    amount := amt
    currency := "USD".toList
    type := debitType
    category := "Food".toList
    description := "Sample".toList
    merchantName := merchant
    status := "completed".toList
    userId := user
    accountId := "acc".toList
    location := none
    reference := none }

/-! ## Helper lemmas -/

theorem TransactionSummary.ext' {a b : TransactionSummary}
    (h1 : a.totalTransactions = b.totalTransactions)
    (h2 : a.totalAmount = b.totalAmount)
    (h3 : a.totalCredits = b.totalCredits)
    (h4 : a.totalDebits = b.totalDebits)
    (h5 : a.avgTransactionAmount = b.avgTransactionAmount)
    (h6 : ∀ c, a.categoryCounts c = b.categoryCounts c) : a = b := by
  cases a
  cases b
  simp_all
  exact funext h6

/-- Closed form of the accumulation pass of `calculateSummary`, generalized
over the starting accumulator. -/
theorem foldl_summaryStep_closed (records : List Transaction) (s : TransactionSummary) :
    records.foldl summaryStep s =
      { totalTransactions := s.totalTransactions + records.length
        totalAmount := s.totalAmount + (records.map Transaction.amount).sum
        totalCredits := s.totalCredits +
          ((records.filter fun r => r.type = creditType).map Transaction.amount).sum
        totalDebits := s.totalDebits +
          ((records.filter fun r => r.type = debitType).map Transaction.amount).sum
        avgTransactionAmount := s.avgTransactionAmount
        categoryCounts := fun c =>
          s.categoryCounts c + (records.filter fun r => c = r.category).length } := by
  induction records generalizing s with
  | nil =>
    apply TransactionSummary.ext' <;> simp [emptySummary]
  | cons r rest ih =>
    rw [List.foldl_cons, ih]
    apply TransactionSummary.ext'
    · simp [summaryStep]
      omega
    · simp [summaryStep]
      ring
    · by_cases hc : r.type = creditType <;> simp [summaryStep, List.filter_cons, hc] <;> ring
    · by_cases hd : r.type = debitType <;> simp [summaryStep, List.filter_cons, hd] <;> ring
    · simp [summaryStep]
    · intro c
      by_cases hcat : c = r.category <;> simp [summaryStep, List.filter_cons, hcat] <;> omega

/-- `calculateSummary`, written as explicit per-field formulas. -/
theorem calculateSummary_eq (records : List Transaction) :
    calculateSummary records =
      { totalTransactions := records.length
        totalAmount := (records.map Transaction.amount).sum
        totalCredits :=
          ((records.filter fun r => r.type = creditType).map Transaction.amount).sum
        totalDebits :=
          ((records.filter fun r => r.type = debitType).map Transaction.amount).sum
        avgTransactionAmount :=
          if records.length > 0 then
            (records.map Transaction.amount).sum / (records.length : ℚ)
          else 0
        categoryCounts := fun c => (records.filter fun r => c = r.category).length } := by
  unfold calculateSummary
  rw [foldl_summaryStep_closed]
  apply TransactionSummary.ext' <;> simp [emptySummary]

/-- A run whose kill flag is already observable emits nothing further. -/
theorem scheduleNextBatchLoop_killed (targetSize batchSize : Int) (k : Nat)
    (fuel : Nat) (produced : Int) (waitsDone : Nat) (h : k ≤ waitsDone) :
    scheduleNextBatchLoop targetSize batchSize (some k) fuel produced waitsDone = [] := by
  cases fuel with
  | zero => rfl
  | succ n => simp [scheduleNextBatchLoop, killObservedAt, h]

/-- Core of the kill analysis: as long as the unkilled loop would still
perform at least `k - waitsDone` waits, the run killed at wait `k` is
exactly the first `k - waitsDone` events of the unkilled run, and none of
its events carries `done = true`. -/
theorem scheduleNextBatchLoop_kill_take (targetSize batchSize : Int) (k : Nat) :
    ∀ (fuel : Nat) (produced : Int) (waitsDone : Nat),
      waitsDone < k →
      k - waitsDone ≤ streamWaits targetSize batchSize fuel produced →
      scheduleNextBatchLoop targetSize batchSize (some k) fuel produced waitsDone =
          (scheduleNextBatchLoop targetSize batchSize none fuel produced waitsDone).take
            (k - waitsDone) ∧
        ∀ e ∈ scheduleNextBatchLoop targetSize batchSize (some k) fuel produced waitsDone,
          genDone e = false := by
  intro fuel
  induction fuel with
  | zero =>
    intro produced waitsDone hlt hw
    simp only [streamWaits] at hw
    omega
  | succ n ih =>
    intro produced waitsDone hlt hw
    have hko : killObservedAt (some k) waitsDone = false := by
      simp only [killObservedAt, decide_eq_false_iff_not]
      omega
    have hkn : ∀ w, killObservedAt none w = false := fun _ => rfl
    by_cases hp : produced < targetSize
    · simp only [streamWaits, if_pos hp] at hw
      by_cases hp' :
          produced +
              ((generateTransactions (min batchSize (targetSize - produced)) produced).length :
                Int) <
            targetSize
      · rw [if_pos hp'] at hw
        have hdone :
            decide (produced +
                ((generateTransactions (min batchSize (targetSize - produced))
                    produced).length : Int) ≥
              targetSize) = false := by
          simp only [decide_eq_false_iff_not]
          omega
        simp only [scheduleNextBatchLoop, hko, hkn, hp, and_true, true_and, if_pos hp',
          if_true, if_pos (And.intro hp' rfl), hdone]
        by_cases hnext : waitsDone + 1 < k
        · obtain ⟨ htake, hdf ⟩ :=
            ih
              (produced +
                ((generateTransactions (min batchSize (targetSize - produced))
                    produced).length : Int))
              (waitsDone + 1) hnext (by omega)
          have hsub : k - waitsDone = (k - (waitsDone + 1)) + 1 := by omega
          constructor
          · rw [htake, hsub, List.take_succ_cons]
          · intro e he
            rcases List.mem_cons.mp he with he | he
            · rw [he]
              simp [genDone, hdone]
            · exact hdf e he
        · have hkill :
              scheduleNextBatchLoop targetSize batchSize (some k) n
                  (produced +
                    ((generateTransactions (min batchSize (targetSize - produced))
                        produced).length : Int))
                  (waitsDone + 1) = [] :=
            scheduleNextBatchLoop_killed _ _ _ _ _ _ (by omega)
          have hsub : k - waitsDone = 1 := by omega
          constructor
          · rw [hkill, hsub, List.take_succ_cons, List.take_zero]
          · intro e he
            rw [hkill] at he
            rcases List.mem_cons.mp he with he | he
            · rw [he]
              simp [genDone, hdone]
            · cases he
      · rw [if_neg hp'] at hw
        omega
    · simp only [streamWaits, if_neg hp] at hw
      omega

/-- Shape of an uncancelled analytics run: one partial at every chunk
boundary strictly before the end, then the single `complete` event. -/
theorem analyzeLoop_none_shape (allT : List Transaction) (ecs total : Nat) :
    ∀ (rest : List Transaction) (index partialsDone : Nat) (summary : AnalyticsSummary),
      index + rest.length = total →
      (analyzeLoop allT ecs total none rest index partialsDone summary).map evShape =
        ((List.range' (index + 1) rest.length).filter fun p =>
            decide (p % ecs = 0) && decide (p < total)).map
            (fun p => ((false, p, total) : Bool × Nat × Nat)) ++
          [(true, total, total)] := by
  intro rest
  induction rest with
  | nil =>
    intro index pd s hlen
    simp [analyzeLoop, cancelObservedAt, evShape]
  | cons t rest ih =>
    intro index pd s hlen
    have hle : index + 1 ≤ total := by
      simp only [List.length_cons] at hlen
      omega
    have hrange : List.range' (index + 1) (rest.length + 1) =
        (index + 1) :: List.range' (index + 1 + 1) rest.length := rfl
    by_cases hb : (index + 1) % ecs = 0 ∨ index + 1 = total
    · by_cases hlt : index + 1 < total
      · have hmod : (index + 1) % ecs = 0 := by
          rcases hb with hb | hb
          · exact hb
          · omega
        simp only [analyzeLoop, cancelObservedAt, Bool.false_eq_true, if_false, if_pos hb,
          if_pos hlt, List.map_cons, List.length_cons, hrange, List.filter_cons]
        rw [ih (index + 1) (pd + 1) (accumulateRecord allT s t)
          (by simp only [List.length_cons] at hlen; omega)]
        simp [evShape, hmod, hlt]
      · have htot : index + 1 = total := by omega
        have hrest : rest = [] := by
          simp only [List.length_cons] at hlen
          exact List.length_eq_zero.mp (by omega)
        subst hrest
        simp only [analyzeLoop, cancelObservedAt, Bool.false_eq_true, if_false, if_pos hb,
          if_neg hlt, List.map_cons, List.length_cons, hrange, List.filter_cons]
        simp [analyzeLoop, cancelObservedAt, evShape, htot]
    · have hmod : (index + 1) % ecs ≠ 0 := fun hx => hb (Or.inl hx)
      simp only [analyzeLoop, cancelObservedAt, Bool.false_eq_true, if_false, if_neg hb,
        List.length_cons, hrange, List.filter_cons]
      rw [ih (index + 1) pd (accumulateRecord allT s t)
        (by simp only [List.length_cons] at hlen; omega)]
      simp [hmod]

/-- Every analytics trace splits into partial events followed by at most
one `complete total total`. -/
theorem analyzeLoop_decomp (allT : List Transaction) (ecs total : Nat) (ca : Option Nat) :
    ∀ (rest : List Transaction) (index partialsDone : Nat) (summary : AnalyticsSummary),
      ∃ ps tail,
        analyzeLoop allT ecs total ca rest index partialsDone summary = ps ++ tail ∧
          (∀ e ∈ ps, evIsComplete e = false) ∧
          (tail = [] ∨ ∃ sm, tail = [AnalyticsEvent.complete sm total total]) := by
  intro rest
  induction rest with
  | nil =>
    intro index pd s
    by_cases hc : cancelObservedAt ca pd = true
    · exact ⟨[], [], by simp [analyzeLoop, hc], by simp, Or.inl rfl⟩
    · refine ⟨[], [AnalyticsEvent.complete { s with generatedAt := 0 } total total],
        ?_, by simp, Or.inr ⟨_, rfl⟩⟩
      simp [analyzeLoop, hc]
  | cons t rest ih =>
    intro index pd s
    by_cases hc : cancelObservedAt ca pd = true
    · exact ⟨[], [], by simp [analyzeLoop, hc], by simp, Or.inl rfl⟩
    · by_cases hb : (index + 1) % ecs = 0 ∨ index + 1 = total
      · by_cases hlt : index + 1 < total
        · obtain ⟨ps, tail, heq, hps, htail⟩ :=
            ih (index + 1) (pd + 1) (accumulateRecord allT s t)
          refine ⟨AnalyticsEvent.interim
              { accumulateRecord allT s t with generatedAt := 0 } (index + 1) total :: ps,
            tail, ?_, ?_, htail⟩
          · simp only [analyzeLoop, hc, Bool.false_eq_true, if_false, if_pos hb, if_pos hlt,
              List.cons_append]
            rw [heq]
          · intro e he
            rcases List.mem_cons.mp he with he | he
            · rw [he]
              rfl
            · exact hps e he
        · obtain ⟨ps, tail, heq, hps, htail⟩ := ih (index + 1) pd (accumulateRecord allT s t)
          refine ⟨ps, tail, ?_, hps, htail⟩
          simp only [analyzeLoop, hc, Bool.false_eq_true, if_false, if_pos hb, if_neg hlt]
          exact heq
      · obtain ⟨ps, tail, heq, hps, htail⟩ := ih (index + 1) pd (accumulateRecord allT s t)
        refine ⟨ps, tail, ?_, hps, htail⟩
        simp only [analyzeLoop, hc, Bool.false_eq_true, if_false, if_neg hb]
        exact heq

/-- A run superseded during the `j`-th partial/wait suspension is exactly
the first `j - partialsDone` events of the unsuperseded run. -/
theorem analyzeLoop_cancel_take (allT : List Transaction) (ecs total : Nat) (j : Nat) :
    ∀ (rest : List Transaction) (index partialsDone : Nat) (summary : AnalyticsSummary),
      analyzeLoop allT ecs total (some j) rest index partialsDone summary =
        (analyzeLoop allT ecs total none rest index partialsDone summary).take
          (j - partialsDone) := by
  intro rest
  induction rest with
  | nil =>
    intro index pd s
    by_cases hc : j ≤ pd
    · have h0 : j - pd = 0 := by omega
      simp [analyzeLoop, cancelObservedAt, hc, h0]
    · have h1 : ∃ m, j - pd = m + 1 := ⟨j - pd - 1, by omega⟩
      obtain ⟨m, hm⟩ := h1
      simp [analyzeLoop, cancelObservedAt, hc, hm]
  | cons t rest ih =>
    intro index pd s
    by_cases hc : j ≤ pd
    · have h0 : j - pd = 0 := by
        omega
      simp [analyzeLoop, cancelObservedAt, hc, h0]
    · have hdec : decide (j ≤ pd) = false := by simp [hc]
      by_cases hb : (index + 1) % ecs = 0 ∨ index + 1 = total
      · by_cases hlt : index + 1 < total
        · have hsub : j - pd = (j - (pd + 1)) + 1 := by omega
          simp only [analyzeLoop, cancelObservedAt, hdec, Bool.false_eq_true, if_false,
            if_pos hb, if_pos hlt]
          rw [ih (index + 1) (pd + 1), hsub, List.take_succ_cons]
        · simp only [analyzeLoop, cancelObservedAt, hdec, Bool.false_eq_true, if_false,
            if_pos hb, if_neg hlt]
          exact ih (index + 1) pd _
      · simp only [analyzeLoop, cancelObservedAt, hdec, Bool.false_eq_true, if_false,
          if_neg hb]
        exact ih (index + 1) pd _

/-! ## Claim theorems -/

/-- `[1, …, n]` restricted to values `< n` is `[1, …, n-1]`. -/
theorem range'_one_filter_lt (n : Nat) :
    ((List.range' 1 n).filter fun p => decide (p < n)) = List.range' 1 (n - 1) := by
  cases n with
  | zero => rfl
  | succ m =>
    rw [List.range'_concat, List.filter_append]
    have h1 : ((List.range' 1 m).filter fun p => decide (p < m + 1)) = List.range' 1 m := by
      apply List.filter_eq_self.mpr
      intro a ha
      obtain ⟨i, hi, hai⟩ := List.mem_range'.mp ha
      simp only [decide_eq_true_eq]
      omega
    have h2 : (([1 + 1 * m] : List Nat).filter fun p => decide (p < m + 1)) = [] := by
      simp
      omega
    rw [h1, h2]
    simp

/-- The `applyFilters` loop yields strictly increasing indices, all at
least the starting index. -/
theorem applyFiltersGo_sorted (f : FilterOptions) (ls : Str) (lim : Option Nat) :
    ∀ (d : List Transaction) (index count : Nat),
      List.Pairwise (· < ·) (applyFiltersGo f ls lim d index count) ∧
        ∀ x ∈ applyFiltersGo f ls lim d index count, index ≤ x := by
  intro d
  induction d with
  | nil =>
    intro index count
    exact ⟨List.Pairwise.nil, by simp [applyFiltersGo]⟩
  | cons t rest ih =>
    intro index count
    by_cases hp : recordPassesFilters f ls t = true
    · by_cases hl : limitReached lim (count + 1) = true
      · constructor
        · simp [applyFiltersGo, hp, hl]
        · intro x hx
          simp [applyFiltersGo, hp, hl] at hx
          omega
      · obtain ⟨hpw, hbd⟩ := ih (index + 1) (count + 1)
        constructor
        · simp only [applyFiltersGo, hp, hl, Bool.false_eq_true, if_false, if_true,
            List.pairwise_cons]
          exact ⟨fun x hx => lt_of_lt_of_le (Nat.lt_succ_self index) (hbd x hx), hpw⟩
        · intro x hx
          simp only [applyFiltersGo, hp, hl, Bool.false_eq_true, if_false, if_true,
            List.mem_cons] at hx
          rcases hx with hx | hx
          · omega
          · have := hbd x hx
            omega
    · obtain ⟨hpw, hbd⟩ := ih (index + 1) count
      constructor
      · simpa [applyFiltersGo, hp] using hpw
      · intro x hx
        simp only [applyFiltersGo, hp, Bool.false_eq_true, if_false] at hx
        have := hbd x hx
        omega

/-- A dataset entirely failing the filters contributes no indices. -/
theorem applyFiltersGo_unmatched (f : FilterOptions) (ls : Str) (lim : Option Nat) :
    ∀ (extra : List Transaction),
      (∀ t ∈ extra, recordPassesFilters f ls t = false) →
      ∀ index count, applyFiltersGo f ls lim extra index count = [] := by
  intro extra
  induction extra with
  | nil =>
    intro _ i c
    rfl
  | cons t rest ih =>
    intro hextra i c
    have h : recordPassesFilters f ls t = false := hextra t (List.mem_cons_self t rest)
    simp only [applyFiltersGo, h, Bool.false_eq_true, if_false]
    exact ih (fun x hx => hextra x (List.mem_cons_of_mem t hx)) _ _

/-- Appending records that fail every filter does not change the result of
the `applyFilters` loop. -/
theorem applyFiltersGo_append_unmatched (f : FilterOptions) (ls : Str) (lim : Option Nat)
    (extra : List Transaction)
    (hextra : ∀ t ∈ extra, recordPassesFilters f ls t = false) :
    ∀ (d : List Transaction) (index count : Nat),
      applyFiltersGo f ls lim (d ++ extra) index count =
        applyFiltersGo f ls lim d index count := by
  intro d
  induction d with
  | nil =>
    intro index count
    rw [List.nil_append]
    exact applyFiltersGo_unmatched f ls lim extra hextra index count
  | cons t rest ih =>
    intro index count
    rw [List.cons_append]
    by_cases hp : recordPassesFilters f ls t = true
    · by_cases hl : limitReached lim (count + 1) = true
      · simp [applyFiltersGo, hp, hl]
      · simp only [applyFiltersGo, hp, hl, Bool.false_eq_true, if_false, if_true]
        rw [ih (index + 1) (count + 1)]
    · simp only [applyFiltersGo, hp, Bool.false_eq_true, if_false]
      exact ih (index + 1) count

/-- **C3 (code evaluation)** — `Dashboard.tsx`'s analytics `handleMessage`
returns early unless the payload's `type` is `'result'`; since the worker
it spawns only ever posts `'partial'` and `'complete'` messages, every
message leaves the coordination state untouched: the batch-pending flag is
never cleared and the deferred generation batch is never dispatched, even
on a successful completion. -/
theorem c3_completion_ignored (state : CoordState) (payload : AnalyticsEvent) :
    handleAnalyticsWorkerMessage state payload = state := by
  cases payload with
  | interim s p t => rfl
  | complete s p t => rfl

/-- Witness for C3 at the failing input: batch pending, analytics posts a
successful completion — the state (pending flag included) is unchanged and
no deferred batch is scheduled. -/
theorem c3_completion_ignored_witness :
    handleAnalyticsWorkerMessage
        { pendingBatch := true, isAnalyzing := true, riskAnalytics := none,
          scheduledBatches := 0 }
        (AnalyticsEvent.complete freshAnalyticsSummary 5 5) =
      { pendingBatch := true, isAnalyzing := true, riskAnalytics := none,
        scheduledBatches := 0 } :=
  c3_completion_ignored _ _

/-- **C2** — For every `analyze` over 5 records with `chunkSize = 2` that is
not canceled, the pipeline emits exactly two partial events (`processed = 2`
and `processed = 4`) followed by exactly one complete event
(`processed = 5`), in that order. -/
theorem c2_analytics_chunk_events (t1 t2 t3 t4 t5 : Transaction) :
    (analyzeRun [t1, t2, t3, t4, t5] (some 2) none).map evShape =
      [(false, 2, 5), (false, 4, 5), (true, 5, 5)] := by
  have hrun : analyzeRun [t1, t2, t3, t4, t5] (some 2) none =
      analyzeLoop [t1, t2, t3, t4, t5] 2 5 none [t1, t2, t3, t4, t5] 0 0
        freshAnalyticsSummary := rfl
  rw [hrun, analyzeLoop_none_shape [t1, t2, t3, t4, t5] 2 5 [t1, t2, t3, t4, t5] 0 0
    freshAnalyticsSummary (by simp)]
  rfl

/-- Witness for C2 at five concrete records. -/
theorem c2_analytics_chunk_events_witness :
    (analyzeRun [mkSample ['a'] 1 0 ['m'] ['u'], mkSample ['b'] 2 0 ['m'] ['u'],
        mkSample ['c'] 3 0 ['m'] ['u'], mkSample ['d'] 4 0 ['m'] ['u'],
        mkSample ['e'] 5 0 ['m'] ['u']] (some 2) none).map evShape =
      [(false, 2, 5), (false, 4, 5), (true, 5, 5)] :=
  c2_analytics_chunk_events _ _ _ _ _

/-- **C10** — A zero or negative `chunkSize` is clamped to an effective
chunk size of `1` (`Math.max(1, chunkSize)`), so an uncanceled run emits a
partial event after every record except the last and still ends with
exactly one complete event. -/
theorem c10_chunk_clamp (transactions : List Transaction) (chunkSize : Int)
    (h : chunkSize ≤ 0) :
    (max 1 chunkSize).toNat = 1 ∧
      (analyzeRun transactions (some chunkSize) none).map evShape =
        ((List.range' 1 (transactions.length - 1)).map
            fun p => ((false, p, transactions.length) : Bool × Nat × Nat)) ++
          [(true, transactions.length, transactions.length)] := by
  have hmax : max (1 : Int) chunkSize = 1 := max_eq_left (by omega)
  have hecs : (max (1 : Int) chunkSize).toNat = 1 := by rw [hmax]; rfl
  refine ⟨hecs, ?_⟩
  have hrun : analyzeRun transactions (some chunkSize) none =
      analyzeLoop transactions ((max 1 chunkSize).toNat) transactions.length none
        transactions 0 0 freshAnalyticsSummary := rfl
  rw [hrun, hecs, analyzeLoop_none_shape transactions 1 transactions.length
    transactions 0 0 freshAnalyticsSummary (by simp)]
  have hfn : (fun p => decide (p % 1 = 0) && decide (p < transactions.length)) =
      fun p => decide (p < transactions.length) := by
    funext p
    simp [Nat.mod_one]
  rw [hfn, range'_one_filter_lt]

/-- Witness for C10 at `chunkSize = -3` over three records. -/
theorem c10_chunk_clamp_witness :
    ((-3 : Int) ≤ 0) ∧
      ((max 1 (-3 : Int)).toNat = 1 ∧
        (analyzeRun [mkSample ['a'] 1 0 ['m'] ['u'], mkSample ['b'] 2 0 ['m'] ['u'],
            mkSample ['c'] 3 0 ['m'] ['u']] (some (-3)) none).map evShape =
          ((List.range' 1 ([mkSample ['a'] 1 0 ['m'] ['u'], mkSample ['b'] 2 0 ['m'] ['u'],
              mkSample ['c'] 3 0 ['m'] ['u']].length - 1)).map
              fun p => ((false, p, [mkSample ['a'] 1 0 ['m'] ['u'],
                mkSample ['b'] 2 0 ['m'] ['u'],
                mkSample ['c'] 3 0 ['m'] ['u']].length) : Bool × Nat × Nat)) ++
            [(true, 3, 3)]) :=
  ⟨by decide, c10_chunk_clamp _ (-3) (by decide)⟩

/-- **C4** — For a given `analyze` call the caller observes zero or more
partial events followed by at most one complete event; a cancel processed
mid-run (during the `j`-th partial/wait suspension, which exists because
the uncanceled run emits at least `j` partials) supersedes the job token
and no complete event is ever emitted for that run, while a fresh,
unsuperseded `analyze` still ends in a complete event carrying
`processed = total`. -/
theorem c4_cancel_contract (transactions : List Transaction) (chunkSize? : Option Int)
    (j : Nat) (hj : 1 ≤ j)
    (hmid : j ≤ countInterim (analyzeRun transactions chunkSize? none)) :
    (∀ e ∈ analyzeRun transactions chunkSize? (some j), evIsComplete e = false) ∧
      (∀ e ∈ (analyzeRun transactions chunkSize? none).dropLast, evIsComplete e = false) ∧
      ∃ sm, (analyzeRun transactions chunkSize? none).getLast? =
        some (AnalyticsEvent.complete sm transactions.length transactions.length) := by
  obtain ⟨ps, tail, heq, hps, htail⟩ :=
    analyzeLoop_decomp transactions ((max 1 (chunkSize?.getD 1000)).toNat)
      transactions.length none transactions 0 0 freshAnalyticsSummary
  have hrunN : analyzeRun transactions chunkSize? none =
      analyzeLoop transactions ((max 1 (chunkSize?.getD 1000)).toNat) transactions.length
        none transactions 0 0 freshAnalyticsSummary := rfl
  have hcount : countInterim (analyzeRun transactions chunkSize? none) = ps.length := by
    rw [hrunN, heq]
    unfold countInterim
    rw [List.filter_append]
    have h1 : (ps.filter fun e => !evIsComplete e) = ps :=
      List.filter_eq_self.mpr fun a ha => by simp [hps a ha]
    have h2 : (tail.filter fun e => !evIsComplete e) = [] := by
      rcases htail with htl | ⟨sm, htl⟩
      · subst htl
        rfl
      · subst htl
        rfl
    rw [h1, h2, List.append_nil]
  rw [hcount] at hmid
  refine ⟨?_, ?_, ?_⟩
  · intro e he
    have hrunC : analyzeRun transactions chunkSize? (some j) =
        (ps ++ tail).take j := by
      rw [show analyzeRun transactions chunkSize? (some j) =
          analyzeLoop transactions ((max 1 (chunkSize?.getD 1000)).toNat)
            transactions.length (some j) transactions 0 0 freshAnalyticsSummary from rfl]
      rw [analyzeLoop_cancel_take, Nat.sub_zero, ← hrunN, hrunN, heq]
    rw [hrunC, List.take_append_of_le_length hmid] at he
    exact hps e (List.take_subset j ps he)
  · intro e he
    rw [hrunN, heq] at he
    rcases htail with htl | ⟨sm, htl⟩
    · subst htl
      rw [List.append_nil] at he
      exact hps e (List.dropLast_subset ps he)
    · subst htl
      rw [List.dropLast_concat] at he
      exact hps e he
  · have hshape := analyzeLoop_none_shape transactions
      ((max 1 (chunkSize?.getD 1000)).toNat) transactions.length transactions 0 0
      freshAnalyticsSummary (by simp)
    have hlast : ((analyzeRun transactions chunkSize? none).map evShape).getLast? =
        some (true, transactions.length, transactions.length) := by
      rw [hrunN, hshape]
      exact List.getLast?_concat _
    rw [List.getLast?_map] at hlast
    obtain ⟨e, he, hshe⟩ := Option.map_eq_some'.mp hlast
    cases e with
    | interim sm p t => simp [evShape] at hshe
    | complete sm p t =>
      obtain ⟨hp, ht⟩ : p = transactions.length ∧ t = transactions.length := by
        simpa [evShape] using hshe
      subst hp
      subst ht
      exact ⟨sm, he⟩

/-- Witness for C4: two records, `chunkSize = 1`, cancel during the first
suspension (the uncanceled run emits one partial). -/
theorem c4_cancel_contract_witness :
    ((1 : Nat) ≤ 1 ∧
        1 ≤ countInterim (analyzeRun [mkSample ['a'] 1 0 ['m'] ['u'],
          mkSample ['b'] 2 0 ['m'] ['u']] (some 1) none)) ∧
      ∀ e ∈ analyzeRun [mkSample ['a'] 1 0 ['m'] ['u'], mkSample ['b'] 2 0 ['m'] ['u']]
          (some 1) (some 1), evIsComplete e = false :=
  ⟨⟨le_refl 1, by decide⟩,
    (c4_cancel_contract [mkSample ['a'] 1 0 ['m'] ['u'], mkSample ['b'] 2 0 ['m'] ['u']]
      (some 1) 1 (le_refl 1) (by decide)).1⟩

/-- **C1 (counterexample)** — At `init(total = 1000, batchSize = 300)` the
target is *not* on a batch-multiple boundary (`800 % 300 ≠ 0`), so by the
claim the final non-empty batch should be the last event; but the run's
last event is an *empty* batch with `done = true` (the unconditional
trailing emission after the streaming loop), and the non-empty `200`-record
batch with `done = true` precedes it. -/
theorem c1_trailing_empty_batch_cex :
    (800 : Nat) % 300 ≠ 0 ∧
      (initRun 1000 (some 300) none).map genShape =
        [(true, 200, false), (false, 300, false), (false, 300, false),
          (false, 200, true), (false, 0, true)] ∧
      (initRun 1000 (some 300) none).getLast?.map genRecCount = some 0 := by
  decide

/-- **C1 (amended)** — For `init(total = 1000, batchSize = 300)` run to
completion: exactly one seed event, first, carrying `200 ≤ 200` records;
all record counts sum to exactly `1000`; the final *non-empty* batch
carries `done = true`; and the run always ends with one additional empty
`done = true` batch event (the idle signal), which is the last event even
though `1000` is not on a batch-multiple boundary. -/
theorem c1_generation_stream_amended :
    ((initRun 1000 (some 300) none).filter fun e => genIsSeed e).length = 1 ∧
      (initRun 1000 (some 300) none).head?.map genShape = some (true, 200, false) ∧
      ((initRun 1000 (some 300) none).map genRecCount).sum = 1000 ∧
      (((initRun 1000 (some 300) none).filter fun e =>
            !genIsSeed e && decide (genRecCount e ≠ 0)).getLast?.map genDone) =
        some true ∧
      (initRun 1000 (some 300) none).getLast?.map genShape = some (false, 0, true) := by
  decide

/-- **C7 (counterexample)** — An `init` with the negative total `-5` is not
rejected: the pipeline proceeds and emits a seed event with zero records
followed by the terminal empty `done = true` batch, exactly as for a
satisfied target, with no failure at the call boundary. -/
theorem c7_negative_total_cex :
    (initRun (-5) none none).map genShape = [(true, 0, false), (false, 0, true)] := by
  decide

/-- **C7 (amended)** — A negative `total` is silently accepted, not
rejected: `Math.min(SEED_COUNT, total)` yields the negative count, the
generation loop produces no records, and the run emits a zero-record seed
event followed by a single empty `done = true` batch. -/
theorem c7_negative_total_amended (total : Int) (killAtWait : Option Nat)
    (h : total < 0) :
    (initRun total none killAtWait).map genShape =
      [(true, 0, false), (false, 0, true)] := by
  have hmin : min SEED_COUNT total = total := by
    apply min_eq_right
    unfold SEED_COUNT
    omega
  have htn : total.toNat = 0 := Int.toNat_of_nonpos (le_of_lt h)
  have hempty : generateTransactions (min SEED_COUNT total) = [] := by
    simp [generateTransactions, hmin, htn]
  simp [initRun, hempty, genShape, genIsSeed, genRecCount, genDone, le_of_lt h]

/-- Witness for C7 (amended) at `total = -5`. -/
theorem c7_negative_total_amended_witness :
    ((-5 : Int) < 0) ∧
      (initRun (-5) none (some 3)).map genShape =
        [(true, 0, false), (false, 0, true)] :=
  ⟨by decide, c7_negative_total_amended (-5) (some 3) (by decide)⟩

/-- **C5** — If `kill()` is received while the generation pipeline is
streaming (delivered during the `k`-th `await wait(16)` suspension, which
exists because the unkilled run performs at least `k` waits), then the
killed run is exactly the strict prefix of the normal run that was emitted
before the flag became observable — no batch events follow the observation
— and no event of the killed run ever carries `done = true`. -/
theorem c5_kill_streaming (total : Int) (batchSize? : Option Int) (k : Nat)
    (hk : 1 ≤ k)
    (hmid : k ≤ streamWaits total (batchSize?.getD BATCH_SIZE) (genFuel total)
        ((generateTransactions (min SEED_COUNT total)).length : Int)) :
    initRun total batchSize? (some k) = (initRun total batchSize? none).take (1 + k) ∧
      ∀ e ∈ initRun total batchSize? (some k), genDone e = false := by
  by_cases hseed : ((generateTransactions (min SEED_COUNT total)).length : Int) ≥ total
  · exfalso
    have hfuel : genFuel total = (total.toNat + 1) + 1 := rfl
    rw [hfuel] at hmid
    simp only [streamWaits, if_neg (not_lt.mpr hseed)] at hmid
    omega
  · obtain ⟨ htake, hdf ⟩ :=
      scheduleNextBatchLoop_kill_take total (batchSize?.getD BATCH_SIZE) k (genFuel total)
        ((generateTransactions (min SEED_COUNT total)).length : Int) 0 (by omega)
        (by simpa using hmid)
    constructor
    · simp only [initRun, if_neg hseed]
      rw [htake]
      have h1k : 1 + k = k + 1 := by omega
      rw [h1k, List.take_succ_cons]
      simp
    · intro e he
      simp only [initRun, if_neg hseed] at he
      rcases List.mem_cons.mp he with he | he
      · rw [he]
        rfl
      · exact hdf e he

/-- Witness for C5: `total = 1000`, `batchSize = 300`, kill delivered
during the first wait (the unkilled run performs two waits). -/
theorem c5_kill_streaming_witness :
    ((1 : Nat) ≤ 1 ∧
        1 ≤ streamWaits 1000 ((some (300 : Int)).getD BATCH_SIZE) (genFuel 1000)
          ((generateTransactions (min SEED_COUNT 1000)).length : Int)) ∧
      (initRun 1000 (some 300) (some 1) = (initRun 1000 (some 300) none).take (1 + 1) ∧
        ∀ e ∈ initRun 1000 (some 300) (some 1), genDone e = false) :=
  ⟨⟨le_refl 1, by decide⟩, c5_kill_streaming 1000 (some 300) 1 (le_refl 1) (by decide)⟩

/-- **C8** — For all record lists `R1` and `R2` over disjoint record sets,
merging `summary(R1)` and `summary(R2)` field-by-field (counts and the
`totalAmount`/`totalCredits`/`totalDebits` sums add, category counts add
per key, and the average is recomputed as merged `totalAmount` over merged
count, `0` when the count is `0`) yields the same summary as computing
`summary(R1 ++ R2)` directly. -/
theorem c8_summary_merge (R1 R2 : List Transaction) (hdisj : ∀ t ∈ R1, t ∉ R2) :
    mergeSummaries (calculateSummary R1) (calculateSummary R2) =
      calculateSummary (R1 ++ R2) := by
  rw [calculateSummary_eq R1, calculateSummary_eq R2, calculateSummary_eq (R1 ++ R2)]
  apply TransactionSummary.ext'
  · simp [mergeSummaries]
  · simp [mergeSummaries]
  · simp [mergeSummaries, List.filter_append]
  · simp [mergeSummaries, List.filter_append]
  · simp only [mergeSummaries]
    rcases Nat.eq_zero_or_pos (R1.length + R2.length) with h0 | hpos
    · obtain ⟨h1, h2⟩ := Nat.add_eq_zero.mp h0
      rw [List.length_eq_zero.mp h1, List.length_eq_zero.mp h2]
      norm_num
    · have hne : R1.length + R2.length ≠ 0 := Nat.pos_iff_ne_zero.mp hpos
      have hor : ¬R1 = [] ∨ ¬R2 = [] := by
        by_contra hc
        push_neg at hc
        obtain ⟨h1, h2⟩ := hc
        simp [h1, h2] at hne
      simp [hne, Nat.pos_iff_ne_zero, List.sum_append, hor]
  · intro c
    simp [mergeSummaries, List.filter_append]

/-- Witness for C8 at concrete disjoint singleton record sets. -/
theorem c8_summary_merge_witness :
    (∀ t ∈ [mkSample ['a'] 3 0 ['m'] ['u']], t ∉ [mkSample ['b'] 5 0 ['n'] ['v']]) ∧
      mergeSummaries (calculateSummary [mkSample ['a'] 3 0 ['m'] ['u']])
          (calculateSummary [mkSample ['b'] 5 0 ['n'] ['v']]) =
        calculateSummary ([mkSample ['a'] 3 0 ['m'] ['u']] ++ [mkSample ['b'] 5 0 ['n'] ['v']]) :=
  ⟨by decide, c8_summary_merge _ _ (by decide)⟩

/-- **C6** — For every record in a candidate set, the combined risk score is
`merchantRisk + amountRisk + timeRisk`, with `merchantRisk = 0.8` when fewer
than 5 records of the set share the record's merchant name (else `0.2`),
`amountRisk = 0.6` when the amount exceeds `1000` (else `0.1`), and
`timeRisk = 0.4` when the local hour is below `6` (else `0.1`); in
particular a record meeting all three high conditions scores exactly
`0.8 + 0.6 + 0.4 = 1.8`. -/
theorem c6_risk_factors (t : Transaction) (R : List Transaction) (ht : t ∈ R) :
    calculateRiskFactors t R =
        (if (R.filter fun r => r.merchantName = t.merchantName).length < 5 then (0.8 : ℚ)
          else 0.2) +
        (if t.amount > 1000 then (0.6 : ℚ) else 0.1) +
        (if getHours t.timestamp < 6 then (0.4 : ℚ) else 0.1) ∧
      ((R.filter fun r => r.merchantName = t.merchantName).length < 5 →
        t.amount > 1000 → getHours t.timestamp < 6 → calculateRiskFactors t R = 1.8) := by
  constructor
  · rfl
  · intro h1 h2 h3
    simp only [calculateRiskFactors, if_pos h1, if_pos h2, if_pos h3]
    norm_num

/-- **C9** — Filter evaluation is deterministic/idempotent (it is a pure
function of dataset, criteria and term, so re-running it yields the same
index list), its indices are strictly ascending in original-dataset order,
and appending records that match no filter never changes the matched index
list or its relative order. -/
theorem c9_filter_eval (transactions extra : List Transaction) (compactView : Bool)
    (itemsPerPage : Nat) (currentFilters : FilterOptions) (search : Str)
    (hextra : ∀ t ∈ extra,
      recordPassesFilters currentFilters (toLowerStr (trimStr search)) t = false) :
    applyFilters transactions compactView itemsPerPage currentFilters search =
        applyFilters transactions compactView itemsPerPage currentFilters search ∧
      List.Pairwise (· < ·)
        (applyFilters transactions compactView itemsPerPage currentFilters search) ∧
      applyFilters (transactions ++ extra) compactView itemsPerPage currentFilters search =
        applyFilters transactions compactView itemsPerPage currentFilters search := by
  refine ⟨rfl, ?_, ?_⟩
  · exact (applyFiltersGo_sorted currentFilters (toLowerStr (trimStr search))
      (if compactView then some itemsPerPage else none) transactions 0 0).1
  · exact applyFiltersGo_append_unmatched currentFilters (toLowerStr (trimStr search))
      (if compactView then some itemsPerPage else none) extra hextra transactions 0 0

/-- Witness for C9: one in-dataset record, one appended record whose
category fails the category filter. -/
theorem c9_filter_eval_witness :
    (∀ t ∈ [mkSample ['z'] 7 0 ['m'] ['u']],
        recordPassesFilters
          { type := allSentinel, status := allSentinel, category := ['X'], searchTerm := [] }
          (toLowerStr (trimStr [])) t = false) ∧
      applyFilters ([mkSample ['a'] 1 0 ['m'] ['u']] ++ [mkSample ['z'] 7 0 ['m'] ['u']])
          false 50
          { type := allSentinel, status := allSentinel, category := ['X'], searchTerm := [] }
          [] =
        applyFilters [mkSample ['a'] 1 0 ['m'] ['u']] false 50
          { type := allSentinel, status := allSentinel, category := ['X'], searchTerm := [] }
          [] :=
  ⟨by decide,
    (c9_filter_eval [mkSample ['a'] 1 0 ['m'] ['u']] [mkSample ['z'] 7 0 ['m'] ['u']]
      false 50
      { type := allSentinel, status := allSentinel, category := ['X'], searchTerm := [] }
      [] (by decide)).2.2⟩

/-- Witness for C6: one record, its own merchant seen once, amount `1500`,
hour `3`. -/
theorem c6_risk_factors_witness :
    (mkSample ['a'] 1500 (3 * 3600000) ['m'] ['u'] ∈
        [mkSample ['a'] 1500 (3 * 3600000) ['m'] ['u']]) ∧
      calculateRiskFactors (mkSample ['a'] 1500 (3 * 3600000) ['m'] ['u'])
        [mkSample ['a'] 1500 (3 * 3600000) ['m'] ['u']] = 1.8 :=
  ⟨List.mem_singleton.mpr rfl,
    (c6_risk_factors _ _ (List.mem_singleton.mpr rfl)).2 (by decide) (by norm_num [mkSample])
      (by decide)⟩

end FintechCore
